import Mathlib

/-!
Shallow embedding of the Toshiba A/C protocol module (`src/src/ir_Toshiba.cpp`)
of the IRremoteESP8266 library, together with proofs about its behaviour.

Byte buffers are modelled as `List Nat` whose elements are intended to be
bytes (`< 256`); machine truncation is made explicit where the C code relies
on it.  The protocol constants and the small `irutils` helpers
(`setBits`/`GETBITS8`, `xorBytes`, `invertBytePairs`, `checkInvertedBytePairs`)
live in headers that are not part of the provided sources, so they are
modelled from the specification text; everything else is translated
directly from `ir_Toshiba.cpp`.
-/

set_option maxRecDepth 8000

/-- Modelled from the spec: protocol constant from the missing header.
The canonical state buffer is 9 bytes (`kToshibaACStateLength`); the
protocol also sanctions a short (7 byte) and a long (10 byte) frame,
matching the three sanctioned bit counts of strict decode. -/
def kToshibaACStateLength : Nat := 9

/-- Modelled from the spec: short frame variant, 7 bytes. -/
def kToshibaACStateLengthShort : Nat := 7

/-- Modelled from the spec: long frame variant, 10 bytes; this is also the
physical capacity of the internal `remote_state` array. -/
def kToshibaACStateLengthLong : Nat := 10

/-- Modelled from the spec: sanctioned bit count for the canonical frame. -/
def kToshibaACBits : Nat := kToshibaACStateLength * 8

/-- Modelled from the spec: sanctioned bit count for the short frame. -/
def kToshibaACBitsShort : Nat := kToshibaACStateLengthShort * 8

/-- Modelled from the spec: sanctioned bit count for the long frame. -/
def kToshibaACBitsLong : Nat := kToshibaACStateLengthLong * 8

/-- Modelled from the spec: byte position of the length-indicator byte. -/
def kToshibaAcLengthByte : Nat := 2

/-- Modelled from the spec: minimum number of bytes in a frame.  Consistent
with the reset state, whose length byte is `0x03` and whose declared
internal length must equal the canonical 9-byte length. -/
def kToshibaAcMinLength : Nat := 6

/-- Modelled from the spec: number of leading bytes forming inverted pairs. -/
def kToshibaAcInvertedLength : Nat := 4

/-- Modelled from the spec: operating-mode codes (a 3-bit field). -/
def kToshibaAcAuto : Nat := 0

/-- Modelled from the spec: mode code for cooling. -/
def kToshibaAcCool : Nat := 1

/-- Modelled from the spec: mode code for drying. -/
def kToshibaAcDry : Nat := 2

/-- Modelled from the spec: mode code for heating. -/
def kToshibaAcHeat : Nat := 3

/-- Modelled from the spec: mode code for fan-only operation. -/
def kToshibaAcFan : Nat := 4

/-- Modelled from the spec: the designated "off" mode code. -/
def kToshibaAcOff : Nat := 7

/-- Modelled from the spec: bit offset of the mode field in byte 6. -/
def kToshibaAcModeOffset : Nat := 0

/-- Modelled from the spec: bit width of the mode field. -/
def kToshibaAcModeSize : Nat := 3

/-- Modelled from the spec: minimum supported temperature in Celsius. -/
def kToshibaAcMinTemp : Nat := 17

/-- Modelled from the spec: maximum supported temperature in Celsius. -/
def kToshibaAcMaxTemp : Nat := 30

/-- Modelled from the spec: bit offset of the temperature field in byte 5. -/
def kToshibaAcTempOffset : Nat := 4

/-- Modelled from the spec: bit width of the temperature field. -/
def kToshibaAcTempSize : Nat := 4

/-- Modelled from the spec: fan sentinel value meaning automatic speed. -/
def kToshibaAcFanAuto : Nat := 0

/-- Modelled from the spec: maximum fan speed accepted by `setFan`. -/
def kToshibaAcFanMax : Nat := 5

/-- Modelled from the spec: bit offset of the fan field in byte 6. -/
def kToshibaAcFanOffset : Nat := 5

/-- Modelled from the spec: bit width of the fan field. -/
def kToshibaAcFanSize : Nat := 3

/-- Read byte `i` of a buffer; out-of-range reads give 0 (they never occur
on the in-range accesses the C code performs on its fixed-size array). -/
def byteAt (s : List Nat) (i : Nat) : Nat := s.getD i 0

/-- Modelled from the spec: `GETBITS8(data, offset, size)` extracts the
`size`-bit unsigned field starting at bit `offset` (LSB-first) of a byte. -/
def getBits8 (data off sz : Nat) : Nat := data / 2 ^ off % 2 ^ sz

/-- Modelled from the spec: `irutils::setBits` overwrites the `sz`-bit field
at bit `offset` of a byte with `v` (masked to the field width), leaving the
other bits of the byte untouched. -/
def setBitsByte (b off sz v : Nat) : Nat :=
  b % 2 ^ off + v % 2 ^ sz * 2 ^ off + b / 2 ^ (off + sz) * 2 ^ (off + sz)

/-- Modelled from the spec: `irutils::xorBytes`, the XOR of the first
`n` bytes of the buffer. -/
def xorBytes (s : List Nat) (n : Nat) : Nat :=
  match n with
  | 0 => 0
  | m + 1 => xorBytes s m ^^^ byteAt s m

/-- Bitwise complement of a byte (`uint8_t` truncation made explicit). -/
def invByte (b : Nat) : Nat := 255 - b % 256

/-- Modelled from the spec: `irutils::invertBytePairs` overwrites each
odd-indexed byte `2i+1` of the region with the complement of byte `2i`. -/
def invertBytePairs (s : List Nat) (n : Nat) : List Nat :=
  (List.range n).foldl
    (fun t i => if i % 2 = 1 then t.set i (invByte (byteAt t (i - 1))) else t) s

/-- Modelled from the spec: `irutils::checkInvertedBytePairs` checks that
each odd-indexed byte of the region equals the complement of its
predecessor. -/
def checkInvertedBytePairs (s : List Nat) (n : Nat) : Bool :=
  (List.range n).all
    (fun i => (i % 2 != 1) || (byteAt s i == invByte (byteAt s (i - 1))))

/-- Translation of `IRToshibaAC::calcChecksum`: XOR of `state[0..length-2]`,
or 0 when `length` is 0. -/
def calcChecksum (state : List Nat) (length : Nat) : Nat :=
  if length ≠ 0 then xorBytes state (length - 1) else 0

/-- Translation of `IRToshibaAC::getInternalStateLength`: the length-byte
value plus the minimum length, or 0 when the array is too small to hold a
length byte. -/
def getInternalStateLength (state : List Nat) (size : Nat) : Nat :=
  if size < kToshibaAcLengthByte then 0
  else byteAt state kToshibaAcLengthByte + kToshibaAcMinLength

/-- Translation of `IRToshibaAC::validChecksum`. -/
def validChecksum (state : List Nat) (length : Nat) : Bool :=
  decide (kToshibaAcMinLength ≤ length) &&
  (byteAt state (length - 1) == calcChecksum state length) &&
  checkInvertedBytePairs state kToshibaAcInvertedLength &&
  (getInternalStateLength state length == length)

/-- Translation of `IRToshibaAC::checksum`: store the checksum in the last
byte of the logical length, then invert the leading byte pairs; a too-short
length leaves the buffer untouched. -/
def checksum (state : List Nat) (length : Nat) : List Nat :=
  if kToshibaAcMinLength ≤ length then
    invertBytePairs (state.set (length - 1) (calcChecksum state length))
      kToshibaAcInvertedLength
  else state

-- Basic byte-access lemmas.

theorem byteAt_set_self (s : List Nat) (i v : Nat) (h : i < s.length) :
    byteAt (s.set i v) i = v := by
  simp [byteAt, List.getD_eq_getElem?_getD, List.getElem?_set_self, h]

theorem byteAt_set_ne (s : List Nat) (i j v : Nat) (h : i ≠ j) :
    byteAt (s.set i v) j = byteAt s j := by
  simp [byteAt, List.getD_eq_getElem?_getD, List.getElem?_set_ne h]

theorem byteAt_mem (s : List Nat) (i : Nat) (h : i < s.length) :
    byteAt s i ∈ s := by
  simp [byteAt, List.getD_eq_getElem?_getD, List.getElem?_eq_getElem h]

theorem xor_swap_right (x a b : Nat) : x ^^^ a ^^^ b = x ^^^ b ^^^ a := by
  rw [Nat.xor_assoc, Nat.xor_assoc, Nat.xor_comm a b]

theorem xorBytes_set_of_le (s : List Nat) (i v n : Nat) (h : n ≤ i) :
    xorBytes (s.set i v) n = xorBytes s n := by
  induction n with
  | zero => rfl
  | succ m ih =>
    have hm : m ≤ i := Nat.le_of_succ_le h
    have hne : i ≠ m := fun he => absurd h (by omega)
    simp [xorBytes, ih hm, byteAt_set_ne s i m v hne]

theorem xorBytes_set (s : List Nat) (i v n : Nat) (hi : i < n)
    (hl : i < s.length) :
    xorBytes (s.set i v) n = xorBytes s n ^^^ byteAt s i ^^^ v := by
  induction n with
  | zero => omega
  | succ m ih =>
    rcases Nat.lt_or_ge i m with hlt | hge
    · have hne : i ≠ m := by omega
      simp only [xorBytes, ih hlt, byteAt_set_ne s i m v hne]
      rw [xor_swap_right (xorBytes s m ^^^ byteAt s i) v (byteAt s m),
          xor_swap_right (xorBytes s m) (byteAt s i) (byteAt s m)]
    · have heq : i = m := by omega
      subst heq
      simp only [xorBytes, xorBytes_set_of_le s i v i (le_refl i),
        byteAt_set_self s i v hl]
      rw [Nat.xor_assoc (xorBytes s i) (byteAt s i) (byteAt s i),
          Nat.xor_self, Nat.xor_zero]

theorem invByte_eq_xor (b : Nat) (h : b < 256) : invByte b = b ^^^ 255 := by
  have : ∀ c < 256, 255 - c % 256 = c ^^^ 255 := by decide
  exact this b h

theorem invertBytePairs_four (s : List Nat) :
    invertBytePairs s 4 =
      (s.set 1 (invByte (byteAt s 0))).set 3
        (invByte (byteAt (s.set 1 (invByte (byteAt s 0))) 2)) := by
  have h4 : List.range 4 = [0, 1, 2, 3] := rfl
  simp [invertBytePairs, h4]

theorem checkInvertedBytePairs_four (s : List Nat) :
    checkInvertedBytePairs s 4 =
      ((byteAt s 1 == invByte (byteAt s 0)) &&
       (byteAt s 3 == invByte (byteAt s 2))) := by
  have h4 : List.range 4 = [0, 1, 2, 3] := rfl
  simp [checkInvertedBytePairs, h4, Bool.and_comm, Bool.and_assoc]

/-- State of an `IRToshibaAC` object: the `remote_state` byte array (of
physical size `kToshibaACStateLengthLong`) and the auxiliary `prev_mode`
field. -/
structure ToshibaState where
  remote_state : List Nat
  prev_mode : Nat
deriving DecidableEq, Repr

/-- Well-formedness invariant maintained by the C++ class: `remote_state`
is a fixed array of `kToshibaACStateLengthLong` bytes. -/
def WF (st : ToshibaState) : Prop :=
  st.remote_state.length = kToshibaACStateLengthLong

/-- Translation of `IRToshibaAC::getMode`: read the 3-bit mode field of
byte 6; unless `raw`, the off code is reported as the remembered previous
mode. -/
def getMode (st : ToshibaState) (raw : Bool := false) : Nat :=
  let mode := getBits8 (byteAt st.remote_state 6) kToshibaAcModeOffset
      kToshibaAcModeSize
  if raw then mode
  else if mode = kToshibaAcOff then st.prev_mode else mode

/-- Translation of `IRToshibaAC::setMode`: a valid mode is recorded as
`prev_mode` and written to the field; the off code is written without
touching `prev_mode`; any other code falls back to `setMode` with the
auto code (which terminates immediately, as auto is valid). -/
def setMode (st : ToshibaState) (mode : Nat) : ToshibaState :=
  if mode = kToshibaAcAuto ∨ mode = kToshibaAcCool ∨ mode = kToshibaAcDry ∨
      mode = kToshibaAcHeat ∨ mode = kToshibaAcFan then
    { remote_state :=
        st.remote_state.set 6 (setBitsByte (byteAt st.remote_state 6)
          kToshibaAcModeOffset kToshibaAcModeSize mode),
      prev_mode := mode }
  else if mode = kToshibaAcOff then
    { remote_state :=
        st.remote_state.set 6 (setBitsByte (byteAt st.remote_state 6)
          kToshibaAcModeOffset kToshibaAcModeSize mode),
      prev_mode := st.prev_mode }
  else setMode st kToshibaAcAuto
termination_by
  (if mode = kToshibaAcAuto ∨ mode = kToshibaAcCool ∨ mode = kToshibaAcDry ∨
      mode = kToshibaAcHeat ∨ mode = kToshibaAcFan then 0 else 1)
decreasing_by
  simp_all [kToshibaAcAuto, kToshibaAcCool, kToshibaAcDry, kToshibaAcHeat,
    kToshibaAcFan]

/-- Translation of `IRToshibaAC::getPower`: on iff the raw mode field is
not the off code. -/
def getPower (st : ToshibaState) : Bool :=
  getMode st true != kToshibaAcOff

/-- Translation of `IRToshibaAC::setPower`: switching on restores the
previous mode when currently off; switching off writes the off code. -/
def setPower (st : ToshibaState) (isOn : Bool) : ToshibaState :=
  if isOn then
    if getPower st then st else setMode st st.prev_mode
  else setMode st kToshibaAcOff

/-- Translation of `IRToshibaAC::setTemp`: clamp into the supported range
and store offset-encoded in the 4-bit field of byte 5. -/
def setTemp (st : ToshibaState) (degrees : Nat) : ToshibaState :=
  let temp := max kToshibaAcMinTemp degrees
  let temp2 := min kToshibaAcMaxTemp temp
  { st with remote_state :=
      st.remote_state.set 5 (setBitsByte (byteAt st.remote_state 5)
        kToshibaAcTempOffset kToshibaAcTempSize (temp2 - kToshibaAcMinTemp)) }

/-- Translation of `IRToshibaAC::getTemp`. -/
def getTemp (st : ToshibaState) : Nat :=
  getBits8 (byteAt st.remote_state 5) kToshibaAcTempOffset kToshibaAcTempSize +
    kToshibaAcMinTemp

/-- Translation of `IRToshibaAC::setFan`: clamp to the maximum, shift
non-auto speeds up by one to make room for the auto sentinel, store in
the 3-bit field of byte 6. -/
def setFan (st : ToshibaState) (speed : Nat) : ToshibaState :=
  let fan := if speed > kToshibaAcFanMax then kToshibaAcFanMax else speed
  let fan2 := if fan > kToshibaAcFanAuto then fan + 1 else fan
  { st with remote_state :=
      st.remote_state.set 6 (setBitsByte (byteAt st.remote_state 6)
        kToshibaAcFanOffset kToshibaAcFanSize fan2) }

/-- Translation of `IRToshibaAC::getFan`. -/
def getFan (st : ToshibaState) : Nat :=
  let fan := getBits8 (byteAt st.remote_state 6) kToshibaAcFanOffset
      kToshibaAcFanSize
  if fan = kToshibaAcFanAuto then kToshibaAcFanAuto else fan - 1

/-- Model of `memcpy(dst, src, n)` on byte buffers: the first `n` bytes
come from `src`, the rest keep their old values; the destination keeps its
physical size. -/
def memcpyList (dst src : List Nat) (n : Nat) : List Nat :=
  (List.range dst.length).map
    (fun i => if i < n then byteAt src i else byteAt dst i)

/-- Translation of `IRToshibaAC::setRaw`: copy exactly
`kToshibaACStateLength` bytes in, then re-derive `prev_mode` via
`getMode()`. -/
def setRaw (st : ToshibaState) (newState : List Nat) : ToshibaState :=
  let rs := memcpyList st.remote_state newState kToshibaACStateLength
  { remote_state := rs,
    prev_mode := getMode { remote_state := rs, prev_mode := st.prev_mode } }

/-- The reset image copied by `stateReset`: 5 explicit bytes, the rest of
the `kToshibaACStateLength`-byte array zero-filled. -/
def kReset : List Nat := [0xF2, 0x0D, 0x03, 0xFC, 0x01, 0, 0, 0, 0]

/-- Translation of `IRToshibaAC::stateReset`: copy the reset image and
re-derive `prev_mode` via `getMode()`. -/
def stateReset (st : ToshibaState) : ToshibaState :=
  let rs := memcpyList st.remote_state kReset kToshibaACStateLength
  { remote_state := rs,
    prev_mode := getMode { remote_state := rs, prev_mode := st.prev_mode } }

/-- The object state right after construction (constructor calls
`stateReset`; the uninitialised trailing byte of the physical array is
modelled as 0, which no claim depends on). -/
def resetState : ToshibaState :=
  stateReset { remote_state := List.replicate kToshibaACStateLengthLong 0,
               prev_mode := 0 }

/-- Translation of `IRToshibaAC::getStateLength`. -/
def getStateLength (st : ToshibaState) : Nat :=
  getInternalStateLength st.remote_state kToshibaACStateLengthLong

/-- Translation of the state mutation performed by `IRToshibaAC::getRaw`:
finalize the checksum over the logical state length. -/
def getRawUpdate (st : ToshibaState) : ToshibaState :=
  { st with remote_state := checksum st.remote_state (getStateLength st) }

/-- Record of the arguments `sendToshibaAC` would hand to the generic
pulse encoder. -/
structure SendCall where
  data : List Nat
  nbytes : Nat
  repeats : Nat
deriving DecidableEq, Repr

/-- Translation of `IRsend::sendToshibaAC`; the generic encoder
(`sendGeneric`, not part of this module) is abstracted as the returned
`SendCall`, `none` meaning nothing is transmitted. -/
def sendToshibaAC (data : List Nat) (nbytes reps : Nat) : Option SendCall :=
  if nbytes < kToshibaACStateLength then none
  else some { data := data, nbytes := nbytes, repeats := reps }

/-- Translation of `IRrecv::decodeToshibaAC`; the generic timing matcher
(`matchGeneric`, not part of this module) is abstracted by `matchResult`:
`none` when the captured timings do not match, `some state` with the
reconstructed bytes when they do.  Returns whether decoding succeeds. -/
def decodeToshibaAC (matchResult : Option (List Nat)) (nbits : Nat)
    (strict : Bool) : Bool :=
  if strict ∧ ¬(nbits = kToshibaACBits ∨ nbits = kToshibaACBitsShort ∨
      nbits = kToshibaACBitsLong) then false
  else
    match matchResult with
    | none => false
    | some state => if strict then validChecksum state (nbits / 8) else true

/-- The public state-mutating operations of the class. -/
inductive Op where
  | opSetMode (m : Nat)
  | opSetPower (isOn : Bool)
  | opSetTemp (d : Nat)
  | opSetFan (s : Nat)
  | opSetRaw (ns : List Nat)
  | opGetRaw
deriving DecidableEq, Repr

/-- Apply one public operation to the object state. -/
def applyOp (st : ToshibaState) : Op → ToshibaState
  | Op.opSetMode m => setMode st m
  | Op.opSetPower b => setPower st b
  | Op.opSetTemp d => setTemp st d
  | Op.opSetFan s => setFan st s
  | Op.opSetRaw ns => setRaw st ns
  | Op.opGetRaw => getRawUpdate st

/-- Apply a sequence of public operations. -/
def applyOps (st : ToshibaState) (ops : List Op) : ToshibaState :=
  ops.foldl applyOp st

-- Helper lemmas about buffers and the checksum finalizer.

theorem byteAt_of_length_le (s : List Nat) (i : Nat) (h : s.length ≤ i) :
    byteAt s i = 0 := by
  simp [byteAt, List.getD_eq_getElem?_getD, List.getElem?_eq_none h]

theorem byteAt_memcpyList (dst src : List Nat) (n i : Nat) :
    byteAt (memcpyList dst src n) i =
      if i < dst.length then
        (if i < n then byteAt src i else byteAt dst i)
      else 0 := by
  rcases Nat.lt_or_ge i dst.length with hlt | hge
  · have : (List.range dst.length)[i]? = some i := by
      simp [List.getElem?_range hlt]
    simp [memcpyList, byteAt, List.getD_eq_getElem?_getD,
      List.getElem?_map, this, if_pos hlt]
  · have hlen : (memcpyList dst src n).length = dst.length := by
      simp [memcpyList]
    rw [byteAt_of_length_le _ _ (by omega), if_neg (by omega)]

theorem length_memcpyList (dst src : List Nat) (n : Nat) :
    (memcpyList dst src n).length = dst.length := by
  simp [memcpyList]

theorem length_checksum (s : List Nat) (l : Nat) :
    (checksum s l).length = s.length := by
  unfold checksum kToshibaAcInvertedLength
  split
  · rw [invertBytePairs_four]
    simp
  · rfl

theorem checksum_eq (s : List Nat) (hl : kToshibaAcMinLength ≤ s.length) :
    checksum s s.length =
      ((s.set (s.length - 1) (xorBytes s (s.length - 1))).set 1
          (invByte (byteAt s 0))).set 3 (invByte (byteAt s 2)) := by
  have hlen : s.length ≠ 0 := by
    unfold kToshibaAcMinLength at hl; omega
  have hne1 : s.length - 1 ≠ 0 := by
    unfold kToshibaAcMinLength at hl; omega
  have hne2 : s.length - 1 ≠ 2 := by
    unfold kToshibaAcMinLength at hl; omega
  unfold checksum kToshibaAcInvertedLength
  rw [if_pos hl, invertBytePairs_four]
  unfold calcChecksum
  rw [if_pos hlen,
    byteAt_set_ne _ _ _ _ hne1,
    byteAt_set_ne _ _ _ _ (by omega : (1 : Nat) ≠ 2),
    byteAt_set_ne _ _ _ _ hne2]

-- Claim theorems.

/-- C3: in strict mode, `decodeToshibaAC` returns false for every bit
count that is not one of the three sanctioned bit counts, regardless of
the captured timings (here: regardless of the timing matcher's outcome). -/
theorem strict_decode_rejects_unsanctioned_bit_counts
    (matchResult : Option (List Nat)) (nbits : Nat)
    (h : nbits ≠ kToshibaACBits ∧ nbits ≠ kToshibaACBitsShort ∧
      nbits ≠ kToshibaACBitsLong) :
    decodeToshibaAC matchResult nbits true = false := by
  unfold decodeToshibaAC
  rw [if_pos]
  exact ⟨rfl, by tauto⟩

/-- Witness for C3 at a concrete unsanctioned bit count with otherwise
perfectly matching timings. -/
theorem strict_decode_rejects_unsanctioned_bit_counts_witness :
    decodeToshibaAC (some kReset) 64 true = false :=
  strict_decode_rejects_unsanctioned_bit_counts (some kReset) 64 (by decide)

/-- C4: `sendToshibaAC` with fewer bytes than the protocol's minimum state
length transmits nothing at all: the generic encoder is never invoked. -/
theorem send_aborts_on_short_buffer (data : List Nat) (nbytes reps : Nat)
    (h : nbytes < kToshibaACStateLength) :
    sendToshibaAC data nbytes reps = none := by
  unfold sendToshibaAC
  rw [if_pos h]

/-- Witness for C4 at a concrete too-short byte count. -/
theorem send_aborts_on_short_buffer_witness :
    sendToshibaAC kReset 8 3 = none :=
  send_aborts_on_short_buffer kReset 8 3 (by decide)

/-- C10: `setRaw` copies exactly `kToshibaACStateLength` bytes and leaves
every internal byte at index `kToshibaACStateLength` or beyond unchanged,
whatever the supplied state (in particular, whatever its embedded
length-indicator byte declares). -/
theorem setRaw_copies_exactly_state_length (st : ToshibaState)
    (newState : List Nat) (hwf : WF st) :
    (∀ i, i < kToshibaACStateLength →
      byteAt (setRaw st newState).remote_state i = byteAt newState i) ∧
    (∀ i, kToshibaACStateLength ≤ i →
      byteAt (setRaw st newState).remote_state i = byteAt st.remote_state i) := by
  unfold WF kToshibaACStateLengthLong at hwf
  unfold kToshibaACStateLength
  constructor
  · intro i hi
    rw [setRaw]
    rw [byteAt_memcpyList]
    rw [if_pos (by omega), if_pos (by unfold kToshibaACStateLength; omega)]
  · intro i hi
    rw [setRaw]
    rw [byteAt_memcpyList]
    rcases Nat.lt_or_ge i st.remote_state.length with hlt | hge
    · rw [if_pos hlt, if_neg (by unfold kToshibaACStateLength; omega)]
    · rw [if_neg (by omega), byteAt_of_length_le _ _ hge]

/-- Witness for C10: a concrete `setRaw` of a long-frame state (length
byte `0x04`, declaring the 10-byte frame) still copies only 9 bytes and
leaves byte 9 of the internal buffer unchanged. -/
theorem setRaw_copies_exactly_state_length_witness :
    byteAt (setRaw resetState
        [0xF2, 0x0D, 0x04, 0xFB, 0x09, 0, 0, 0, 0, 0xAA]).remote_state 0 =
      0xF2 ∧
    byteAt (setRaw resetState
        [0xF2, 0x0D, 0x04, 0xFB, 0x09, 0, 0, 0, 0, 0xAA]).remote_state 9 =
      byteAt resetState.remote_state 9 := by
  have h := setRaw_copies_exactly_state_length resetState
      [0xF2, 0x0D, 0x04, 0xFB, 0x09, 0, 0, 0, 0, 0xAA] (by unfold WF; decide)
  exact ⟨by rw [h.1 0 (by decide)]; decide, h.2 9 (by decide)⟩

/-- C7: `setTemp` followed by `getTemp` yields the input clamped into the
supported temperature range. -/
theorem setTemp_getTemp_clamps (st : ToshibaState) (degrees : Nat)
    (hwf : WF st) :
    getTemp (setTemp st degrees) =
      min kToshibaAcMaxTemp (max kToshibaAcMinTemp degrees) := by
  unfold WF kToshibaACStateLengthLong at hwf
  have h5 : (5 : Nat) < st.remote_state.length := by omega
  unfold getTemp setTemp
  rw [byteAt_set_self _ _ _ h5]
  unfold getBits8 setBitsByte kToshibaAcTempOffset kToshibaAcTempSize
    kToshibaAcMinTemp kToshibaAcMaxTemp
  norm_num
  omega

/-- Witness for C7 at an out-of-range input. -/
theorem setTemp_getTemp_clamps_witness :
    getTemp (setTemp resetState 99) =
      min kToshibaAcMaxTemp (max kToshibaAcMinTemp 99) :=
  setTemp_getTemp_clamps resetState 99 (by unfold WF; decide)

/-- C8: `setFan` followed by `getFan` yields the speed clamped to the
valid range: 0 round-trips to the auto code, 1..max round-trip, and
anything above the maximum reads back as the maximum. -/
theorem setFan_getFan_clamps (st : ToshibaState) (speed : Nat)
    (hwf : WF st) :
    getFan (setFan st speed) = min speed kToshibaAcFanMax := by
  unfold WF kToshibaACStateLengthLong at hwf
  have h6 : (6 : Nat) < st.remote_state.length := by omega
  unfold getFan setFan
  rw [byteAt_set_self _ _ _ h6]
  unfold getBits8 setBitsByte kToshibaAcFanOffset kToshibaAcFanSize
    kToshibaAcFanAuto kToshibaAcFanMax
  norm_num
  split_ifs <;> omega

/-- Witness for C8 at the auto sentinel, an in-range and an out-of-range
speed. -/
theorem setFan_getFan_clamps_witness :
    getFan (setFan resetState 0) = 0 ∧
    getFan (setFan resetState 4) = 4 ∧
    getFan (setFan resetState 77) = kToshibaAcFanMax := by
  refine ⟨?_, ?_, ?_⟩
  · rw [setFan_getFan_clamps resetState 0 (by unfold WF; decide)]
    decide
  · rw [setFan_getFan_clamps resetState 4 (by unfold WF; decide)]
    decide
  · rw [setFan_getFan_clamps resetState 77 (by unfold WF; decide)]
    decide

-- Unfolding lemmas for the mode machinery.

theorem setMode_valid_eq (st : ToshibaState) (m : Nat)
    (h : m = kToshibaAcAuto ∨ m = kToshibaAcCool ∨ m = kToshibaAcDry ∨
      m = kToshibaAcHeat ∨ m = kToshibaAcFan) :
    setMode st m =
      { remote_state := st.remote_state.set 6
          (setBitsByte (byteAt st.remote_state 6) kToshibaAcModeOffset
            kToshibaAcModeSize m),
        prev_mode := m } := by
  rw [setMode, if_pos h]

theorem setMode_off_eq (st : ToshibaState) :
    setMode st kToshibaAcOff =
      { remote_state := st.remote_state.set 6
          (setBitsByte (byteAt st.remote_state 6) kToshibaAcModeOffset
            kToshibaAcModeSize kToshibaAcOff),
        prev_mode := st.prev_mode } := by
  rw [setMode, if_neg (by decide), if_pos rfl]

theorem getBits8_setBits_mode (b m : Nat) :
    getBits8 (setBitsByte b kToshibaAcModeOffset kToshibaAcModeSize m)
      kToshibaAcModeOffset kToshibaAcModeSize = m % 8 := by
  unfold getBits8 setBitsByte kToshibaAcModeOffset kToshibaAcModeSize
  norm_num
  omega

theorem setPower_false_eq (st : ToshibaState) :
    setPower st false = setMode st kToshibaAcOff := by
  simp [setPower]

theorem setPower_true_eq_of_off (st : ToshibaState)
    (h : getMode st true = kToshibaAcOff) :
    setPower st true = setMode st st.prev_mode := by
  simp [setPower, getPower, h]

theorem getMode_raw_mk_set6 (rs : List Nat) (v p : Nat) (h6 : 6 < rs.length) :
    getMode { remote_state := rs.set 6 v, prev_mode := p } true =
      getBits8 v kToshibaAcModeOffset kToshibaAcModeSize := by
  unfold getMode
  simp only [if_pos]
  rw [byteAt_set_self _ _ _ h6]

/-- C2: setting a valid non-off mode, powering off, then powering on
restores exactly that mode. -/
theorem power_cycle_restores_mode (st : ToshibaState) (m : Nat) (hwf : WF st)
    (hm : m = kToshibaAcAuto ∨ m = kToshibaAcCool ∨ m = kToshibaAcDry ∨
      m = kToshibaAcHeat ∨ m = kToshibaAcFan) :
    getMode (setPower (setPower (setMode st m) false) true) = m := by
  unfold WF kToshibaACStateLengthLong at hwf
  have hm4 : m < 7 := by
    unfold kToshibaAcAuto kToshibaAcCool kToshibaAcDry kToshibaAcHeat
      kToshibaAcFan at hm
    omega
  have h6 : 6 < st.remote_state.length := by omega
  rw [setMode_valid_eq st m hm, setPower_false_eq, setMode_off_eq]
  have hoff : getMode
      { remote_state := (st.remote_state.set 6
          (setBitsByte (byteAt st.remote_state 6) kToshibaAcModeOffset
            kToshibaAcModeSize m)).set 6
          (setBitsByte (byteAt (st.remote_state.set 6
              (setBitsByte (byteAt st.remote_state 6) kToshibaAcModeOffset
                kToshibaAcModeSize m)) 6) kToshibaAcModeOffset
            kToshibaAcModeSize kToshibaAcOff),
        prev_mode := m } true = kToshibaAcOff := by
    rw [getMode_raw_mk_set6 _ _ _ (by simpa using h6), getBits8_setBits_mode]
    decide
  rw [setPower_true_eq_of_off _ hoff]
  rw [setMode_valid_eq _ m hm]
  unfold getMode
  simp only [Bool.false_eq_true, if_false]
  rw [byteAt_set_self _ _ _ (by simpa using h6), getBits8_setBits_mode,
    Nat.mod_eq_of_lt (by omega)]
  rw [if_neg (by unfold kToshibaAcOff; omega)]

/-- Witness for C2 with the heat mode on the reset state. -/
theorem power_cycle_restores_mode_witness :
    getMode (setPower (setPower (setMode resetState kToshibaAcHeat) false)
      true) = kToshibaAcHeat :=
  power_cycle_restores_mode resetState kToshibaAcHeat (by unfold WF; decide)
    (by tauto)

/-- C6: any mode code outside the valid operating modes and the off code
makes `setMode` fall back in exactly one step to the default (auto) mode:
the call equals `setMode` at the auto code, afterwards `prev_mode` and the
raw mode field both hold the auto code (the model is a total function, so
the call terminates on every input byte). -/
theorem setMode_invalid_falls_back_to_auto (st : ToshibaState) (code : Nat)
    (hwf : WF st)
    (h : code ≠ kToshibaAcAuto ∧ code ≠ kToshibaAcCool ∧
      code ≠ kToshibaAcDry ∧ code ≠ kToshibaAcHeat ∧ code ≠ kToshibaAcFan ∧
      code ≠ kToshibaAcOff) :
    setMode st code = setMode st kToshibaAcAuto ∧
    (setMode st code).prev_mode = kToshibaAcAuto ∧
    getMode (setMode st code) true = kToshibaAcAuto := by
  unfold WF kToshibaACStateLengthLong at hwf
  have h6 : 6 < st.remote_state.length := by omega
  have hstep : setMode st code = setMode st kToshibaAcAuto := by
    conv_lhs => rw [setMode]
    rw [if_neg (by tauto), if_neg (by tauto)]
  refine ⟨hstep, ?_, ?_⟩
  · rw [hstep, setMode_valid_eq st kToshibaAcAuto (Or.inl rfl)]
  · rw [hstep, setMode_valid_eq st kToshibaAcAuto (Or.inl rfl),
      getMode_raw_mk_set6 _ _ _ h6, getBits8_setBits_mode]
    decide

/-- Witness for C6 at a concrete invalid mode code. -/
theorem setMode_invalid_falls_back_to_auto_witness :
    (setMode resetState 6).prev_mode = kToshibaAcAuto ∧
    getMode (setMode resetState 6) true = kToshibaAcAuto := by
  have h := setMode_invalid_falls_back_to_auto resetState 6
    (by unfold WF; decide) (by decide)
  exact ⟨h.2.1, h.2.2⟩

theorem xor_left_comm (a b c : Nat) : a ^^^ (b ^^^ c) = b ^^^ (a ^^^ c) := by
  rw [← Nat.xor_assoc, Nat.xor_comm a b, Nat.xor_assoc]

/-- C5: `checksum(length)` first computes the XOR checksum over the
original (pre-inversion) bytes `0..length-2` and stores it at index
`length-1`, and only then applies the inverted-byte-pair overwrite, which
rewrites exactly the odd bytes 1 and 3 of the pair region; every other
byte is unchanged.  A length below the minimum leaves the buffer
untouched. -/
theorem checksum_order_and_effect (s : List Nat) (l : Nat) :
    (l < kToshibaAcMinLength → checksum s l = s) ∧
    (kToshibaAcMinLength ≤ l → l = s.length →
      byteAt (checksum s l) (l - 1) = xorBytes s (l - 1) ∧
      byteAt (checksum s l) 1 = invByte (byteAt s 0) ∧
      byteAt (checksum s l) 3 = invByte (byteAt s 2) ∧
      ∀ i, i ≠ 1 → i ≠ 3 → i ≠ l - 1 →
        byteAt (checksum s l) i = byteAt s i) := by
  constructor
  · intro hlt
    unfold checksum
    rw [if_neg (by omega)]
  · intro hge hlen
    subst hlen
    have hmin : 6 ≤ s.length := by unfold kToshibaAcMinLength at hge; omega
    rw [checksum_eq s hge]
    refine ⟨?_, ?_, ?_, ?_⟩
    · rw [byteAt_set_ne _ _ _ _ (by omega : (3 : Nat) ≠ s.length - 1),
        byteAt_set_ne _ _ _ _ (by omega : (1 : Nat) ≠ s.length - 1),
        byteAt_set_self _ _ _ (by omega)]
    · rw [byteAt_set_ne _ _ _ _ (by omega : (3 : Nat) ≠ 1),
        byteAt_set_self _ _ _ (by rw [List.length_set]; omega)]
    · rw [byteAt_set_self _ _ _ (by rw [List.length_set, List.length_set]; omega)]
    · intro i h1 h3 hl
      rw [byteAt_set_ne _ _ _ _ (Ne.symm h3), byteAt_set_ne _ _ _ _ (Ne.symm h1),
        byteAt_set_ne _ _ _ _ (Ne.symm hl)]

/-- Witness for C5: on the canonical reset image, the stored checksum
byte is the XOR of the original first 8 bytes, and a too-short length
leaves the buffer untouched. -/
theorem checksum_order_and_effect_witness :
    byteAt (checksum kReset 9) 8 = xorBytes kReset 8 ∧
    checksum kReset 5 = kReset := by
  refine ⟨?_, (checksum_order_and_effect kReset 5).1 (by decide)⟩
  have h := (checksum_order_and_effect kReset 9).2 (by decide) (by decide)
  exact h.1

/-- C1 fails as stated: for the all-zero buffer of length 7 (at least the
minimum length), `validChecksum` is false immediately after
`checksum(7)`, because the embedded length-indicator byte still declares
a 6-byte frame. -/
theorem checksum_validChecksum_counterexample :
    kToshibaAcMinLength ≤ 7 ∧
    validChecksum (checksum (List.replicate 7 0) 7) 7 = false := by decide

/-- C1 (amended): for every byte buffer of at least the minimum length
whose length-indicator byte matches the buffer's length and whose
inverted-pair region XORs to zero (as it does whenever the pair region
already holds inverted pairs), `validChecksum` is true immediately after
`checksum(length)` is applied. -/
theorem checksum_then_validChecksum (s : List Nat)
    (hlen : kToshibaAcMinLength ≤ s.length)
    (hbytes : ∀ b ∈ s, b < 256)
    (hind : byteAt s kToshibaAcLengthByte + kToshibaAcMinLength = s.length)
    (hpair : byteAt s 0 ^^^ byteAt s 1 ^^^ byteAt s 2 ^^^ byteAt s 3 = 0) :
    validChecksum (checksum s s.length) s.length = true := by
  have hmin : 6 ≤ s.length := by unfold kToshibaAcMinLength at hlen; omega
  rw [checksum_eq s hlen]
  have hX1 : byteAt (s.set (s.length - 1) (xorBytes s (s.length - 1))) 1 =
      byteAt s 1 := byteAt_set_ne _ _ _ _ (by omega)
  have hX3 : byteAt (s.set (s.length - 1) (xorBytes s (s.length - 1))) 3 =
      byteAt s 3 := byteAt_set_ne _ _ _ _ (by omega)
  have hlast : byteAt (((s.set (s.length - 1) (xorBytes s (s.length - 1))).set 1
      (invByte (byteAt s 0))).set 3 (invByte (byteAt s 2))) (s.length - 1) =
      xorBytes s (s.length - 1) := by
    rw [byteAt_set_ne _ _ _ _ (by omega : (3 : Nat) ≠ s.length - 1),
      byteAt_set_ne _ _ _ _ (by omega : (1 : Nat) ≠ s.length - 1),
      byteAt_set_self _ _ _ (by omega)]
  have hb1 : byteAt (((s.set (s.length - 1) (xorBytes s (s.length - 1))).set 1
      (invByte (byteAt s 0))).set 3 (invByte (byteAt s 2))) 1 =
      invByte (byteAt s 0) := by
    rw [byteAt_set_ne _ _ _ _ (by omega : (3 : Nat) ≠ 1),
      byteAt_set_self _ _ _ (by rw [List.length_set]; omega)]
  have hb0 : byteAt (((s.set (s.length - 1) (xorBytes s (s.length - 1))).set 1
      (invByte (byteAt s 0))).set 3 (invByte (byteAt s 2))) 0 =
      byteAt s 0 := by
    rw [byteAt_set_ne _ _ _ _ (by omega : (3 : Nat) ≠ 0),
      byteAt_set_ne _ _ _ _ (by omega : (1 : Nat) ≠ 0),
      byteAt_set_ne _ _ _ _ (by omega : s.length - 1 ≠ 0)]
  have hb3 : byteAt (((s.set (s.length - 1) (xorBytes s (s.length - 1))).set 1
      (invByte (byteAt s 0))).set 3 (invByte (byteAt s 2))) 3 =
      invByte (byteAt s 2) := by
    rw [byteAt_set_self _ _ _ (by rw [List.length_set, List.length_set]; omega)]
  have hb2 : byteAt (((s.set (s.length - 1) (xorBytes s (s.length - 1))).set 1
      (invByte (byteAt s 0))).set 3 (invByte (byteAt s 2))) 2 =
      byteAt s 2 := by
    rw [byteAt_set_ne _ _ _ _ (by omega : (3 : Nat) ≠ 2),
      byteAt_set_ne _ _ _ _ (by omega : (1 : Nat) ≠ 2),
      byteAt_set_ne _ _ _ _ (by omega : s.length - 1 ≠ 2)]
  have hxor : xorBytes (((s.set (s.length - 1) (xorBytes s (s.length - 1))).set 1
      (invByte (byteAt s 0))).set 3 (invByte (byteAt s 2))) (s.length - 1) =
      xorBytes s (s.length - 1) := by
    rw [xorBytes_set _ 3 _ _ (by omega)
        (by rw [List.length_set, List.length_set]; omega),
      xorBytes_set _ 1 _ _ (by omega) (by rw [List.length_set]; omega),
      xorBytes_set_of_le _ _ _ _ (le_refl (s.length - 1)),
      hX1, byteAt_set_ne _ _ _ _ (by omega : (1 : Nat) ≠ 3), hX3]
    have h0 : byteAt s 0 < 256 := hbytes _ (byteAt_mem s 0 (by omega))
    have h2 : byteAt s 2 < 256 := hbytes _ (byteAt_mem s 2 (by omega))
    rw [invByte_eq_xor _ h0, invByte_eq_xor _ h2]
    have h3 : byteAt s 0 ^^^ byteAt s 1 ^^^ byteAt s 2 = byteAt s 3 :=
      Nat.xor_eq_zero.mp hpair
    simp only [Nat.xor_assoc]
    have hz : byteAt s 1 ^^^ (byteAt s 0 ^^^ (255 ^^^
        (byteAt s 3 ^^^ (byteAt s 2 ^^^ 255)))) = 0 := by
      rw [← h3]
      simp [Nat.xor_assoc, Nat.xor_comm, xor_left_comm]
    rw [hz, Nat.xor_zero]
  unfold validChecksum
  simp only [Bool.and_eq_true, beq_iff_eq, decide_eq_true_eq]
  refine ⟨⟨⟨hlen, ?_⟩, ?_⟩, ?_⟩
  · rw [hlast]
    unfold calcChecksum
    rw [if_pos (by omega), hxor]
  · unfold kToshibaAcInvertedLength
    rw [checkInvertedBytePairs_four, hb0, hb1, hb2, hb3]
    simp
  · unfold getInternalStateLength
    rw [if_neg (by unfold kToshibaAcLengthByte; omega)]
    unfold kToshibaAcLengthByte at hind ⊢
    rw [hb2]
    unfold kToshibaAcMinLength at hind ⊢
    omega

/-- Witness for C1 (amended) on the canonical 9-byte reset image. -/
theorem checksum_then_validChecksum_witness :
    validChecksum (checksum kReset kReset.length) kReset.length = true :=
  checksum_then_validChecksum kReset (by decide) (by decide) (by decide)
    (by decide)

-- Preservation lemmas for the prev_mode invariant.

theorem setMode_prev_ne_off (st : ToshibaState) (m : Nat)
    (h : st.prev_mode ≠ kToshibaAcOff) :
    (setMode st m).prev_mode ≠ kToshibaAcOff := by
  by_cases hv : m = kToshibaAcAuto ∨ m = kToshibaAcCool ∨ m = kToshibaAcDry ∨
      m = kToshibaAcHeat ∨ m = kToshibaAcFan
  · rw [setMode_valid_eq st m hv]
    show m ≠ kToshibaAcOff
    unfold kToshibaAcAuto kToshibaAcCool kToshibaAcDry kToshibaAcHeat
      kToshibaAcFan at hv
    unfold kToshibaAcOff
    omega
  · by_cases ho : m = kToshibaAcOff
    · subst ho
      rw [setMode_off_eq]
      exact h
    · conv_lhs => rw [setMode]
      rw [if_neg hv, if_neg ho, setMode_valid_eq st kToshibaAcAuto (Or.inl rfl)]
      show kToshibaAcAuto ≠ kToshibaAcOff
      decide

theorem getMode_false_ne_off (st : ToshibaState)
    (h : st.prev_mode ≠ kToshibaAcOff) :
    getMode st ≠ kToshibaAcOff := by
  unfold getMode
  simp only [Bool.false_eq_true, if_false]
  split_ifs with hm
  · exact h
  · exact hm

theorem applyOp_prev_ne_off (st : ToshibaState) (op : Op)
    (h : st.prev_mode ≠ kToshibaAcOff) :
    (applyOp st op).prev_mode ≠ kToshibaAcOff := by
  cases op with
  | opSetMode m => exact setMode_prev_ne_off st m h
  | opSetPower b =>
    cases b with
    | false =>
      show (setPower st false).prev_mode ≠ kToshibaAcOff
      rw [setPower_false_eq, setMode_off_eq]
      exact h
    | true =>
      show (setPower st true).prev_mode ≠ kToshibaAcOff
      by_cases hp : getPower st
      · simpa [setPower, hp] using h
      · simp only [setPower, hp, if_pos, Bool.false_eq_true, if_false]
        exact setMode_prev_ne_off st st.prev_mode h
  | opSetTemp d => exact h
  | opSetFan s => exact h
  | opSetRaw ns =>
    show (setRaw st ns).prev_mode ≠ kToshibaAcOff
    unfold setRaw
    exact getMode_false_ne_off _ h
  | opGetRaw => exact h

/-- C9 (amended): starting from the reset state, after every sequence of
public operations the auxiliary `prev_mode` field never holds the off
code, and consequently `getMode()` with the default raw=false argument
never returns the off code.  (It can, however, hold a non-off code
outside the valid operating-mode set, as the counterexample shows.) -/
theorem prev_mode_never_off (ops : List Op) :
    (applyOps resetState ops).prev_mode ≠ kToshibaAcOff ∧
    getMode (applyOps resetState ops) ≠ kToshibaAcOff := by
  have main : ∀ rest st, st.prev_mode ≠ kToshibaAcOff →
      (applyOps st rest).prev_mode ≠ kToshibaAcOff := by
    intro rest
    induction rest with
    | nil => intro st h; exact h
    | cons op tail ih =>
      intro st h
      exact ih _ (applyOp_prev_ne_off st op h)
  have h0 : resetState.prev_mode ≠ kToshibaAcOff := by decide
  have hp := main ops resetState h0
  exact ⟨hp, getMode_false_ne_off _ hp⟩

/-- C9 fails as originally stated: `setRaw` of a checksum-valid state
whose mode field holds 5 (neither a valid operating mode nor the off
code) leaves `prev_mode` holding 5, which is none of the valid non-off
mode codes. -/
theorem prev_mode_counterexample :
    validChecksum [0xF2, 0x0D, 0x03, 0xFC, 0x01, 0x00, 0x05, 0x00, 0x04] 9 =
      true ∧
    (applyOps resetState
      [Op.opSetRaw [0xF2, 0x0D, 0x03, 0xFC, 0x01, 0x00, 0x05, 0x00, 0x04]]
      ).prev_mode = 5 ∧
    ¬(5 = kToshibaAcAuto ∨ 5 = kToshibaAcCool ∨ 5 = kToshibaAcDry ∨
      5 = kToshibaAcHeat ∨ 5 = kToshibaAcFan) := by decide
